/-
Verification of kicad-snapshot against its specification.

The definitions below are shallow embeddings of functions from
`src/kicad_snapshot/__main__.py` (duplicated in `main.py`):
file-map diffing, the backup whitelist, the kicad-cli SVG export loop,
image padding / pixel diffing, the compare render cache and its status
map, the timeline limit, memo sanitisation and language normalisation.
Python `str` values used as map keys are modelled as Lean `String`
(compared lexicographically by code point, as in Python); file paths and
strings that need character-level processing are modelled as `List Char`;
`bytes` payloads as `List Nat`.
-/
import Mathlib

namespace KicadSnapshot

/-! ### File maps and `compare_file_maps` -/

/-- `bytes` content of a project file. -/
abbrev Bytes := List Nat

/-- A Python `dict[str, bytes]`: an association list whose keys are unique
(dict keys are; lookups take the first binding). -/
abbrev FileMap := List (String × Bytes)

/-- The keys of a file map, in insertion order (`dict.keys()`). -/
def fmKeys (m : FileMap) : List String := m.map Prod.fst

/-- Dictionary lookup (`m[k]` / `m.get(k)`). -/
def fmGet (m : FileMap) (k : String) : Option Bytes :=
  (m.find? (fun p => p.1 == k)).map Prod.snd

/-- Python `sorted` on strings: lexicographic by code point.  Python's sort
is a stable mergesort, modelled by `List.mergeSort`. -/
def sortStrings (l : List String) : List String :=
  l.mergeSort (fun a b => decide (a ≤ b))

/-- `compare_file_maps(before, after)` from `__main__.py`.  Computes
`added = sorted(after_keys - before_keys)`, `removed = sorted(before_keys -
after_keys)`, and walks `common = sorted(before_keys & after_keys)` in
order, appending each key to `unchanged` when the byte contents agree and
to `changed` otherwise; that loop is an order-preserving partition of
`common` by content inequality. -/
def compare_file_maps (before after : FileMap) :
    List String × List String × List String × List String :=
  let before_keys := fmKeys before
  let after_keys := fmKeys after
  let added := sortStrings (after_keys.filter (fun k => decide (k ∉ before_keys)))
  let removed := sortStrings (before_keys.filter (fun k => decide (k ∉ after_keys)))
  let common := sortStrings (before_keys.filter (fun k => decide (k ∈ after_keys)))
  let part := common.partition (fun k => decide (fmGet before k ≠ fmGet after k))
  (added, removed, part.1, part.2)

lemma mem_sortStrings {k : String} {l : List String} : k ∈ sortStrings l ↔ k ∈ l := by
  simp [sortStrings, List.mem_mergeSort]

lemma sorted_sortStrings (l : List String) : (sortStrings l).Sorted (· ≤ ·) :=
  List.sorted_mergeSort' l

lemma sorted_filter_of_sorted {p : String → Bool} {l : List String}
    (h : l.Sorted (· ≤ ·)) : (l.filter p).Sorted (· ≤ ·) :=
  List.Pairwise.sublist (List.filter_sublist l) h

/-- **C1.** `compare_file_maps(A, B)` returns four pairwise-disjoint path
lists whose union is `keys A ∪ keys B`: `added = keys B − keys A`,
`removed = keys A − keys B`, each common key lands in `changed` exactly
when its byte content differs and in `unchanged` otherwise, and all four
lists are sorted lexicographically. -/
theorem compare_file_maps_correct (before after : FileMap) :
    (∀ k, k ∈ (compare_file_maps before after).1 ↔
        k ∈ fmKeys after ∧ k ∉ fmKeys before) ∧
    (∀ k, k ∈ (compare_file_maps before after).2.1 ↔
        k ∈ fmKeys before ∧ k ∉ fmKeys after) ∧
    (∀ k, k ∈ (compare_file_maps before after).2.2.1 ↔
        k ∈ fmKeys before ∧ k ∈ fmKeys after ∧ fmGet before k ≠ fmGet after k) ∧
    (∀ k, k ∈ (compare_file_maps before after).2.2.2 ↔
        k ∈ fmKeys before ∧ k ∈ fmKeys after ∧ fmGet before k = fmGet after k) ∧
    (∀ k, (k ∈ (compare_file_maps before after).1 ∨
           k ∈ (compare_file_maps before after).2.1 ∨
           k ∈ (compare_file_maps before after).2.2.1 ∨
           k ∈ (compare_file_maps before after).2.2.2) ↔
        (k ∈ fmKeys before ∨ k ∈ fmKeys after)) ∧
    (∀ k, ¬(k ∈ (compare_file_maps before after).1 ∧
            k ∈ (compare_file_maps before after).2.1) ∧
          ¬(k ∈ (compare_file_maps before after).1 ∧
            k ∈ (compare_file_maps before after).2.2.1) ∧
          ¬(k ∈ (compare_file_maps before after).1 ∧
            k ∈ (compare_file_maps before after).2.2.2) ∧
          ¬(k ∈ (compare_file_maps before after).2.1 ∧
            k ∈ (compare_file_maps before after).2.2.1) ∧
          ¬(k ∈ (compare_file_maps before after).2.1 ∧
            k ∈ (compare_file_maps before after).2.2.2) ∧
          ¬(k ∈ (compare_file_maps before after).2.2.1 ∧
            k ∈ (compare_file_maps before after).2.2.2)) ∧
    ((compare_file_maps before after).1.Sorted (· ≤ ·) ∧
     (compare_file_maps before after).2.1.Sorted (· ≤ ·) ∧
     (compare_file_maps before after).2.2.1.Sorted (· ≤ ·) ∧
     (compare_file_maps before after).2.2.2.Sorted (· ≤ ·)) := by
  have hadd : ∀ k, k ∈ (compare_file_maps before after).1 ↔
      k ∈ fmKeys after ∧ k ∉ fmKeys before := by
    intro k
    simp [compare_file_maps, mem_sortStrings, List.mem_filter]
  have hrem : ∀ k, k ∈ (compare_file_maps before after).2.1 ↔
      k ∈ fmKeys before ∧ k ∉ fmKeys after := by
    intro k
    simp [compare_file_maps, mem_sortStrings, List.mem_filter]
  have hchg : ∀ k, k ∈ (compare_file_maps before after).2.2.1 ↔
      k ∈ fmKeys before ∧ k ∈ fmKeys after ∧ fmGet before k ≠ fmGet after k := by
    intro k
    simp [compare_file_maps, List.partition_eq_filter_filter, mem_sortStrings,
      List.mem_filter, and_assoc]
  have hunc : ∀ k, k ∈ (compare_file_maps before after).2.2.2 ↔
      k ∈ fmKeys before ∧ k ∈ fmKeys after ∧ fmGet before k = fmGet after k := by
    intro k
    simp [compare_file_maps, List.partition_eq_filter_filter, mem_sortStrings,
      List.mem_filter, and_assoc]
  refine ⟨hadd, hrem, hchg, hunc, ?_, ?_, ?_, ?_, ?_, ?_⟩
  · intro k
    by_cases hb : k ∈ fmKeys before <;> by_cases ha : k ∈ fmKeys after <;>
      by_cases he : fmGet before k = fmGet after k <;>
      simp [hadd, hrem, hchg, hunc, hb, ha, he]
  · intro k
    constructor
    · rintro ⟨h1, h2⟩
      exact ((hadd k).1 h1).2 ((hrem k).1 h2).1
    refine ⟨?_, ?_, ?_, ?_, ?_⟩
    · rintro ⟨h1, h2⟩
      exact ((hadd k).1 h1).2 ((hchg k).1 h2).1
    · rintro ⟨h1, h2⟩
      exact ((hadd k).1 h1).2 ((hunc k).1 h2).1
    · rintro ⟨h1, h2⟩
      exact ((hrem k).1 h1).2 ((hchg k).1 h2).2.1
    · rintro ⟨h1, h2⟩
      exact ((hrem k).1 h1).2 ((hunc k).1 h2).2.1
    · rintro ⟨h1, h2⟩
      exact ((hchg k).1 h1).2.2 ((hunc k).1 h2).2.2
  · exact sorted_sortStrings _
  · exact sorted_sortStrings _
  · simpa [compare_file_maps, List.partition_eq_filter_filter] using
      sorted_filter_of_sorted (sorted_sortStrings
        ((fmKeys before).filter (fun k => decide (k ∈ fmKeys after))))
  · simpa [compare_file_maps, List.partition_eq_filter_filter] using
      sorted_filter_of_sorted (sorted_sortStrings
        ((fmKeys before).filter (fun k => decide (k ∈ fmKeys after))))

/-! ### Bitmaps: `pad_image`, `make_pixel_diff_image`, `images_different`

A `QImage` in `Format_ARGB32` is modelled by its dimensions and a pixel
function returning the packed `0xAARRGGBB` value; values of `pix` outside
the bounds are irrelevant to every operation below.  `fill(Qt.white)`
makes every pixel `0xFFFFFFFF`, and `painter.drawImage(0, 0, image)` onto
the white canvas is modelled as placing the source pixels at the origin
(the renders being composed are opaque `ARGB32` images). -/

/-- The packed ARGB value of `Qt.white`. -/
def whiteArgb : Nat := 0xFFFFFFFF

/-- The red highlight colour used for changed pixels. -/
def highlightArgb : Nat := 0xFFFF4040

/-- A `QImage` in `Format_ARGB32`. -/
structure Image where
  width : Nat
  height : Nat
  pix : Nat → Nat → Nat

/-- `pad_image(image, width, height)` from `__main__.py`: the input
unchanged when the dimensions already match, otherwise a white canvas of
the requested size with the original drawn at the origin. -/
def pad_image (image : Image) (width height : Nat) : Image :=
  if image.width = width ∧ image.height = height then image
  else
    { width := width, height := height,
      pix := fun x y =>
        if x < image.width ∧ y < image.height then image.pix x y else whiteArgb }

/-- `make_pixel_diff_image(before, after)`: a canvas of the common padded
size holding the `after` pixel where the padded inputs agree and
`0xFFFF4040` where they differ. -/
def make_pixel_diff_image (before after : Image) : Image :=
  let width := max before.width after.width
  let height := max before.height after.height
  let b := pad_image before width height
  let a := pad_image after width height
  { width := width, height := height,
    pix := fun x y =>
      if x < width ∧ y < height then
        if b.pix x y = a.pix x y then a.pix x y else highlightArgb
      else whiteArgb }

/-- `images_different(before, after)`: scans the two padded bitmaps for a
single differing pixel. -/
def images_different (before after : Image) : Bool :=
  let width := max before.width after.width
  let height := max before.height after.height
  let b := pad_image before width height
  let a := pad_image after width height
  (List.range height).any fun y =>
    (List.range width).any fun x => b.pix x y != a.pix x y

/-- The diff bitmap shows the highlight colour somewhere inside its
bounds. -/
def contains_highlight (img : Image) : Bool :=
  (List.range img.height).any fun y =>
    (List.range img.width).any fun x => img.pix x y == highlightArgb

/-- A 1×1 bitmap whose only pixel already carries the highlight colour. -/
def redPixelImage : Image := ⟨1, 1, fun _ _ => highlightArgb⟩

/-- A 1×1 white bitmap. -/
def whitePixelImage : Image := ⟨1, 1, fun _ _ => whiteArgb⟩

/-- A 1×1 black bitmap. -/
def blackPixelImage : Image := ⟨1, 1, fun _ _ => 0xFF000000⟩

lemma pad_image_width (image : Image) (w h : Nat) : (pad_image image w h).width = w := by
  unfold pad_image
  split <;> simp_all

lemma pad_image_height (image : Image) (w h : Nat) : (pad_image image w h).height = h := by
  unfold pad_image
  split <;> simp_all

/-- **C8.** `pad_image` is idempotent, and an image that already has the
requested dimensions is returned unchanged. -/
theorem pad_image_idempotent (img : Image) (w h : Nat) (hw : 0 < w) (hh : 0 < h) :
    pad_image (pad_image img w h) w h = pad_image img w h ∧
    (img.width = w → img.height = h → pad_image img w h = img) := by
  constructor
  · rw [pad_image]
    rw [if_pos ⟨pad_image_width img w h, pad_image_height img w h⟩]
  · intro h1 h2
    rw [pad_image, if_pos ⟨h1, h2⟩]

/-- A concrete instantiation of `pad_image_idempotent`. -/
theorem pad_image_idempotent_witness :
    pad_image (pad_image ⟨1, 1, fun _ _ => whiteArgb⟩ 2 3) 2 3 =
      pad_image ⟨1, 1, fun _ _ => whiteArgb⟩ 2 3 :=
  (pad_image_idempotent ⟨1, 1, fun _ _ => whiteArgb⟩ 2 3 (by decide) (by decide)).1

/-- **C3 (counterexample).** When the two bitmaps agree on a pixel that
already carries the highlight colour, the diff image contains a
highlight-coloured pixel although `images_different` is `false`: the
claimed equivalence fails. -/
theorem images_different_highlight_cex :
    ¬(images_different redPixelImage redPixelImage = true ↔
      contains_highlight (make_pixel_diff_image redPixelImage redPixelImage) = true) := by
  decide

/-- **C3 (amended).** `images_different img img = false` for every bitmap;
`images_different before after = true` implies the pixel-diff image
contains a highlight-coloured pixel; and the converse holds provided the
padded inputs never agree on a pixel whose value is the highlight colour
itself. -/
theorem images_different_highlight (img before after : Image) :
    images_different img img = false ∧
    (images_different before after = true →
      contains_highlight (make_pixel_diff_image before after) = true) ∧
    ((∀ x y, x < max before.width after.width →
        y < max before.height after.height →
        (pad_image before (max before.width after.width)
            (max before.height after.height)).pix x y =
          (pad_image after (max before.width after.width)
            (max before.height after.height)).pix x y →
        (pad_image after (max before.width after.width)
            (max before.height after.height)).pix x y ≠ highlightArgb) →
      contains_highlight (make_pixel_diff_image before after) = true →
      images_different before after = true) := by
  refine ⟨?_, ?_, ?_⟩
  · simp [images_different]
  · intro hdiff
    simp only [images_different, List.any_eq_true, List.mem_range, bne_iff_ne,
      ne_eq] at hdiff
    obtain ⟨y, hy, x, hx, hne⟩ := hdiff
    simp only [contains_highlight, make_pixel_diff_image, List.any_eq_true,
      List.mem_range, beq_iff_eq]
    refine ⟨y, hy, x, hx, ?_⟩
    rw [if_pos ⟨hx, hy⟩, if_neg hne]
  · intro hclean hcont
    simp only [contains_highlight, make_pixel_diff_image, List.any_eq_true,
      List.mem_range, beq_iff_eq] at hcont
    obtain ⟨y, hy, x, hx, hpix⟩ := hcont
    rw [if_pos ⟨hx, hy⟩] at hpix
    by_cases heq : (pad_image before (max before.width after.width)
        (max before.height after.height)).pix x y =
        (pad_image after (max before.width after.width)
          (max before.height after.height)).pix x y
    · rw [if_pos heq] at hpix
      exact absurd hpix (hclean x y hx hy heq)
    · simp only [images_different, List.any_eq_true, List.mem_range, bne_iff_ne,
        ne_eq]
      exact ⟨y, hy, x, hx, heq⟩

/-- A concrete instantiation of `images_different_highlight`: a white and a
black 1×1 bitmap do differ. -/
theorem images_different_highlight_witness :
    images_different whitePixelImage blackPixelImage = true :=
  (images_different_highlight whitePixelImage whitePixelImage blackPixelImage).2.2
    (fun _ _ _ _ heq => by
      simp [whitePixelImage, blackPixelImage, pad_image, whiteArgb] at heq)
    (by decide)

/-! ### Character-level string helpers (Python `str` methods) -/

/-- Python `str.strip()`: remove whitespace from both ends. -/
def pyStrip (l : List Char) : List Char :=
  ((l.dropWhile Char.isWhitespace).reverse.dropWhile Char.isWhitespace).reverse

/-- Python `str.strip(cs)`: remove any of the characters `cs` from both
ends. -/
def pyStripChars (l : List Char) (cs : List Char) : List Char :=
  ((l.dropWhile (fun c => cs.contains c)).reverse.dropWhile
    (fun c => cs.contains c)).reverse

/-! ### `sanitize_memo_for_filename` -/

/-- The `forbidden` character set of `sanitize_memo_for_filename`. -/
def FORBIDDEN_FILENAME_CHARS : List Char :=
  ['/', '\\', ':', '*', '?', '"', '<', '>', '|']

/-- The per-character decision of the `sanitize_memo_for_filename` loop:
skip forbidden characters, skip control characters, keep alphanumerics and
`_`/`-`/`.`, keep any character of code point at least 128, drop the rest.
(`str.isalnum` agrees with ASCII alphanumeric below code point 128, and
code points at least 128 are kept regardless.) -/
def memoKeepChar (ch : Char) : Bool :=
  if FORBIDDEN_FILENAME_CHARS.contains ch then false
  else if ch.toNat < 32 then false
  else if ch.isAlphanum ∨ ch ∈ ['_', '-', '.'] then true
  else if 128 ≤ ch.toNat then true
  else false

/-- `sanitize_memo_for_filename(memo)` from `__main__.py`. -/
def sanitize_memo_for_filename (memo : List Char) : List Char :=
  let text := (pyStrip memo).map fun ch => if ch = ' ' then '_' else ch
  let cleaned := text.filter memoKeepChar
  pyStripChars cleaned ['.', '_', '-']

/-! ### `normalize_language` -/

/-- `SUPPORTED_LANGUAGES` from `__main__.py`. -/
def SUPPORTED_LANGUAGES : List (List Char) :=
  ["en".data, "ja".data, "zh".data, "fr".data, "de".data]

/-- `normalize_language(code)` from `__main__.py`: `None` or the empty
string map to `"en"`; otherwise lowercase (ASCII lowering; no non-ASCII
character lowercases into the ASCII supported tags), replace `-` by `_`,
split off the part before the first `_`, and fall back to `"en"` when the
result is unsupported. -/
def normalize_language : Option (List Char) → List Char
  | none => "en".data
  | some code =>
    if code = [] then "en".data
    else
      let lowered := (code.map Char.toLower).map fun c => if c = '-' then '_' else c
      let base := lowered.takeWhile fun c => c != '_'
      if base ∈ SUPPORTED_LANGUAGES then base else "en".data

/-- The primary subtag as the spec words it: lowercase the input and take
the characters before the first `-` or `_`. -/
def spec_primary_subtag (code : List Char) : List Char :=
  (code.map Char.toLower).takeWhile fun c => c != '-' && c != '_'

/-! ### The backup whitelist and `build_backup_zip_map` -/

/-- `file_names` of `is_backup_target_path`. -/
def BACKUP_FILE_NAMES : List (List Char) :=
  ["fp-lib-table".data, "sym-lib-table".data, "design-block-lib-table".data]

/-- `suffixes` of `is_backup_target_path`. -/
def BACKUP_SUFFIXES : List (List Char) :=
  [".kicad_pro".data, ".kicad_sch".data, ".kicad_pcb".data, ".kicad_sym".data,
   ".kicad_mod".data, ".kicad_dru".data, ".kicad_wks".data]

/-- `name.replace("\\", "/").strip("/")`. -/
def normalize_zip_entry (name : List Char) : List Char :=
  pyStripChars (name.map fun c => if c = '\\' then '/' else c) ['/']

/-- `PurePath(p).name`: the final path component. -/
def path_base_name (l : List Char) : List Char :=
  (l.reverse.takeWhile (fun c => c != '/')).reverse

/-- `PurePath(name).suffix`: the part of the final component from its last
dot on, empty when that dot is absent, leading or trailing. -/
def path_suffix (name : List Char) : List Char :=
  let rev := name.reverse
  let tail := rev.takeWhile fun c => c != '.'
  if tail.length < rev.length ∧ 0 < tail.length ∧ tail.length < rev.length - 1 then
    '.' :: tail.reverse
  else []

/-- `is_backup_target_path(rel_path)` from `__main__.py`. -/
def is_backup_target_path (rel_path : List Char) : Bool :=
  let normalized := normalize_zip_entry rel_path
  if normalized = [] then false
  else
    let base_name := path_base_name normalized
    if base_name ∈ BACKUP_FILE_NAMES then true
    else BACKUP_SUFFIXES.contains (path_suffix base_name)

/-- Python `dict` assignment `m[k] = v`: replace an existing binding in
place, otherwise append (insertion order is preserved). -/
def dictInsert {κ α : Type} [BEq κ] (m : List (κ × α)) (k : κ) (v : α) :
    List (κ × α) :=
  if m.any (fun p => p.1 == k) then
    m.map fun p => if p.1 == k then (k, v) else p
  else m ++ [(k, v)]

/-- `build_backup_zip_map(zip_path)` from `__main__.py`, over the archive's
entry list (`zf.namelist()` paired with `zf.read`): normalise each name,
skip empty or directory entries, keep only whitelist targets. -/
def build_backup_zip_map (entries : List (List Char × Bytes)) :
    List (List Char × Bytes) :=
  entries.foldl
    (fun result entry =>
      let normalized := normalize_zip_entry entry.1
      if normalized = [] ∨ normalized.getLast? = some '/' then result
      else if is_backup_target_path normalized = false then result
      else dictInsert result normalized entry.2)
    []

/-- **C7.** An archive whose entries are exactly `board.kicad_pcb`,
`notes.txt` and `fp-lib-table` yields a file map with exactly the keys
`board.kicad_pcb` and `fp-lib-table`; `notes.txt` is rejected by the
whitelist. -/
theorem build_backup_zip_map_whitelist (b1 b2 b3 : Bytes) :
    build_backup_zip_map
        [("board.kicad_pcb".data, b1), ("notes.txt".data, b2),
         ("fp-lib-table".data, b3)] =
      [("board.kicad_pcb".data, b1), ("fp-lib-table".data, b3)] := by
  have hn1 : normalize_zip_entry "board.kicad_pcb".data = "board.kicad_pcb".data := by
    decide
  have hn2 : normalize_zip_entry "notes.txt".data = "notes.txt".data := by decide
  have hn3 : normalize_zip_entry "fp-lib-table".data = "fp-lib-table".data := by decide
  have hb1 : is_backup_target_path "board.kicad_pcb".data = true := by decide
  have hb2 : is_backup_target_path "notes.txt".data = false := by decide
  have hb3 : is_backup_target_path "fp-lib-table".data = true := by decide
  simp [build_backup_zip_map, dictInsert, hn1, hn2, hn3, hb1, hb2, hb3]

lemma head?_dropWhile_not {α : Type} {p : α → Bool} :
    ∀ {l : List α} {a : α}, (l.dropWhile p).head? = some a → p a = false := by
  intro l
  induction l with
  | nil => intro a h; simp [List.dropWhile] at h
  | cons c rest ih =>
    intro a h
    rw [List.dropWhile_cons] at h
    by_cases hc : p c = true
    · rw [if_pos hc] at h
      exact ih h
    · rw [if_neg hc] at h
      rw [List.head?_cons, Option.some.injEq] at h
      subst h
      simpa using hc

lemma getLast?_dropWhile_ne_nil {α : Type} {p : α → Bool} {l : List α}
    (h : l.dropWhile p ≠ []) : (l.dropWhile p).getLast? = l.getLast? := by
  obtain ⟨t, ht⟩ := List.dropWhile_suffix p (l := l)
  conv_rhs => rw [← ht, List.getLast?_append]
  cases hx : (l.dropWhile p).getLast? with
  | none => exact absurd (List.getLast?_eq_none_iff.mp hx) h
  | some x => rfl

lemma mem_of_mem_pyStripChars {ch : Char} {l cs : List Char}
    (h : ch ∈ pyStripChars l cs) : ch ∈ l := by
  unfold pyStripChars at h
  rw [List.mem_reverse] at h
  have h2 := (List.dropWhile_sublist _).subset h
  rw [List.mem_reverse] at h2
  exact (List.dropWhile_sublist _).subset h2

lemma pyStripChars_head? {l cs : List Char} {ch : Char}
    (h : (pyStripChars l cs).head? = some ch) : cs.contains ch = false := by
  unfold pyStripChars at h
  rw [List.head?_reverse] at h
  have hne : (l.dropWhile (fun c => cs.contains c)).reverse.dropWhile
      (fun c => cs.contains c) ≠ [] := by
    intro he
    rw [he] at h
    simp at h
  rw [getLast?_dropWhile_ne_nil hne, List.getLast?_reverse] at h
  exact head?_dropWhile_not h

lemma pyStripChars_getLast? {l cs : List Char} {ch : Char}
    (h : (pyStripChars l cs).getLast? = some ch) : cs.contains ch = false := by
  unfold pyStripChars at h
  rw [List.getLast?_reverse] at h
  exact head?_dropWhile_not h

lemma memoKeepChar_spec {ch : Char} (h : memoKeepChar ch = true) :
    ch ∉ FORBIDDEN_FILENAME_CHARS ∧ 32 ≤ ch.toNat ∧
    (ch.isAlphanum = true ∨ ch ∈ ['_', '-', '.'] ∨ 128 ≤ ch.toNat) := by
  unfold memoKeepChar at h
  split_ifs at h with h1 h2 h3 h4
  · refine ⟨by simpa using h1, by omega, ?_⟩
    rcases h3 with h3 | h3
    · exact Or.inl h3
    · exact Or.inr (Or.inl h3)
  · exact ⟨by simpa using h1, by omega, Or.inr (Or.inr h4)⟩

/-- **C9.** `sanitize_memo_for_filename` never returns a forbidden
filesystem character or a control character; every returned character is
alphanumeric, one of `_`/`-`/`.`, or has code point at least 128; and the
result neither starts nor ends with `.`, `_` or `-`. -/
theorem sanitize_memo_for_filename_safe (memo : List Char) :
    (∀ ch ∈ sanitize_memo_for_filename memo,
        ch ∉ FORBIDDEN_FILENAME_CHARS ∧ 32 ≤ ch.toNat ∧
        (ch.isAlphanum = true ∨ ch ∈ ['_', '-', '.'] ∨ 128 ≤ ch.toNat)) ∧
    (∀ ch, (sanitize_memo_for_filename memo).head? = some ch →
        ch ∉ ['.', '_', '-']) ∧
    (∀ ch, (sanitize_memo_for_filename memo).getLast? = some ch →
        ch ∉ ['.', '_', '-']) := by
  refine ⟨?_, ?_, ?_⟩
  · intro ch hch
    simp only [sanitize_memo_for_filename] at hch
    have h1 := mem_of_mem_pyStripChars hch
    exact memoKeepChar_spec (List.mem_filter.mp h1).2
  · intro ch hch
    simp only [sanitize_memo_for_filename] at hch
    simpa using pyStripChars_head? hch
  · intro ch hch
    simp only [sanitize_memo_for_filename] at hch
    simpa using pyStripChars_getLast? hch

/-- A concrete instantiation of `sanitize_memo_for_filename_safe` at the
memo `".a b/c."`, whose sanitised form is `"a_bc"`. -/
theorem sanitize_memo_for_filename_safe_witness :
    'a' ∈ sanitize_memo_for_filename ".a b/c.".data ∧
    'a' ∉ FORBIDDEN_FILENAME_CHARS ∧ 32 ≤ 'a'.toNat ∧
    ('a'.isAlphanum = true ∨ 'a' ∈ ['_', '-', '.'] ∨ 128 ≤ 'a'.toNat) :=
  ⟨by decide, (sanitize_memo_for_filename_safe ".a b/c.".data).1 'a' (by decide)⟩

lemma takeWhile_replace_eq (l : List Char) :
    ((l.map fun c => if c = '-' then '_' else c).takeWhile fun c => c != '_') =
      l.takeWhile fun c => c != '-' && c != '_' := by
  induction l with
  | nil => rfl
  | cons c rest ih =>
    by_cases h1 : c = '-'
    · subst h1
      simp [List.takeWhile_cons]
    · by_cases h2 : c = '_'
      · subst h2
        simp [List.takeWhile_cons]
      · simp [List.takeWhile_cons, h1, h2, ih]

/-- **C10.** `normalize_language` always lands in the supported-language
set; `None` and the empty string map to `"en"`, and otherwise the result
is the lowercased primary subtag (the part before the first `-`/`_`) when
that is supported and `"en"` in every other case. -/
theorem normalize_language_spec (code : Option (List Char)) (c : List Char) :
    normalize_language code ∈ SUPPORTED_LANGUAGES ∧
    normalize_language none = "en".data ∧
    normalize_language (some []) = "en".data ∧
    (c ≠ [] → normalize_language (some c) =
      if spec_primary_subtag c ∈ SUPPORTED_LANGUAGES then spec_primary_subtag c
      else "en".data) := by
  have key : ∀ d : List Char, d ≠ [] → normalize_language (some d) =
      if spec_primary_subtag d ∈ SUPPORTED_LANGUAGES then spec_primary_subtag d
      else "en".data := by
    intro d hd
    simp only [normalize_language, if_neg hd, spec_primary_subtag,
      takeWhile_replace_eq]
  refine ⟨?_, rfl, by simp [normalize_language], key c⟩
  cases code with
  | none => simp [normalize_language, SUPPORTED_LANGUAGES]
  | some d =>
    by_cases hd : d = []
    · subst hd
      simp [normalize_language, SUPPORTED_LANGUAGES]
    · rw [key d hd]
      split_ifs with hs
      · exact hs
      · simp [SUPPORTED_LANGUAGES]

/-- A concrete instantiation of `normalize_language_spec` at `"ja-JP"`. -/
theorem normalize_language_spec_witness :
    normalize_language (some "ja-JP".data) =
      (if spec_primary_subtag "ja-JP".data ∈ SUPPORTED_LANGUAGES
       then spec_primary_subtag "ja-JP".data else "en".data) :=
  (normalize_language_spec (some "ja-JP".data) "ja-JP".data).2.2.2 (by decide)

/-! ### `export_svg_bundle_with_kicad_cli` -/

/-- The result of `subprocess.run(cmd, capture_output=True, text=True)`. -/
structure SubprocResult where
  returncode : Int
  stdout : List Char
  stderr : List Char
deriving DecidableEq

/-- One attempted command of the export loop: the subprocess result and
the sorted `.svg` files found under the output directory afterwards
(`sorted(out_dir.rglob("*.svg"))`). -/
structure AttemptOutcome where
  result : SubprocResult
  svgs : List (List Char)
deriving DecidableEq

/-- `(result.stderr or result.stdout or "").strip() or "kicad-cli export
failed"`: `or` takes the first truthy (non-empty) operand. -/
def failure_diag (r : SubprocResult) : List Char :=
  let raw := if r.stderr ≠ [] then r.stderr else if r.stdout ≠ [] then r.stdout else []
  let s := pyStrip raw
  if s ≠ [] then s else "kicad-cli export failed".data

/-- The diagnostic the loop records for one failed attempt: the fixed
message for a clean exit that produced no SVG, the captured
stderr/stdout for a non-zero exit. -/
def attempt_diag (o : AttemptOutcome) : List Char :=
  if o.result.returncode = 0 then "No SVG exported by kicad-cli".data
  else failure_diag o.result

/-- The command loop of `export_svg_bundle_with_kicad_cli`, over the
outcome of each alternative command (`last_err` starts as `""`): a run is
successful when it exits 0 and at least one `.svg` file exists under the
output directory afterwards, in which case the sorted SVG list is
returned; otherwise the diagnostic is remembered and the next alternative
tried; when all alternatives are exhausted a `RuntimeError` carrying
`last_err or "kicad-cli export failed"` is raised (`Except.error`). -/
def export_svg_attempts (last_err : List Char) :
    List AttemptOutcome → Except (List Char) (List (List Char))
  | [] => .error (if last_err ≠ [] then last_err else "kicad-cli export failed".data)
  | o :: rest =>
    if o.result.returncode = 0 then
      if o.svgs ≠ [] then .ok o.svgs
      else export_svg_attempts "No SVG exported by kicad-cli".data rest
    else export_svg_attempts (failure_diag o.result) rest

/-- An attempt the source judges successful: exit status 0 and at least
one `.svg` present afterwards. -/
def attempt_success (o : AttemptOutcome) : Bool :=
  o.result.returncode == 0 && !o.svgs.isEmpty

lemma failure_diag_ne_nil (r : SubprocResult) : failure_diag r ≠ [] := by
  show (if pyStrip (if r.stderr ≠ [] then r.stderr
          else if r.stdout ≠ [] then r.stdout else []) ≠ [] then
        pyStrip (if r.stderr ≠ [] then r.stderr
          else if r.stdout ≠ [] then r.stdout else [])
      else "kicad-cli export failed".data) ≠ []
  split_ifs <;> first | assumption | decide

lemma failure_diag_stderr (r : SubprocResult) (hne : r.stderr ≠ [])
    (hstrip : pyStrip r.stderr ≠ []) : failure_diag r = pyStrip r.stderr := by
  show (if pyStrip (if r.stderr ≠ [] then r.stderr
          else if r.stdout ≠ [] then r.stdout else []) ≠ [] then
        pyStrip (if r.stderr ≠ [] then r.stderr
          else if r.stdout ≠ [] then r.stdout else [])
      else "kicad-cli export failed".data) = pyStrip r.stderr
  rw [if_pos hne, if_pos hstrip]

lemma failure_diag_stdout (r : SubprocResult) (hnil : r.stderr = [])
    (hstrip : pyStrip r.stdout ≠ []) : failure_diag r = pyStrip r.stdout := by
  have hstdne : r.stdout ≠ [] := fun h => hstrip (by rw [h]; rfl)
  show (if pyStrip (if r.stderr ≠ [] then r.stderr
          else if r.stdout ≠ [] then r.stdout else []) ≠ [] then
        pyStrip (if r.stderr ≠ [] then r.stderr
          else if r.stdout ≠ [] then r.stdout else [])
      else "kicad-cli export failed".data) = pyStrip r.stdout
  rw [if_neg (not_not_intro hnil), if_pos hstdne, if_pos hstrip]

/-- **C5.** The export loop returns successfully iff some attempted
command exits 0 with at least one `.svg` present afterwards, and then
returns the SVG list of the first such attempt (all earlier alternatives
having failed); when every alternative fails, it raises the diagnostic of
the most recent (last) attempt — for a non-zero exit the captured
standard error, falling back to standard output. -/
theorem export_svg_attempts_spec (outcomes : List AttemptOutcome) (e : List Char) :
    (∀ s, export_svg_attempts e outcomes = .ok s ↔
      ∃ o, outcomes.find? attempt_success = some o ∧ s = o.svgs) ∧
    (outcomes.find? attempt_success = none → outcomes ≠ [] →
      ∃ last, outcomes.getLast? = some last ∧
        export_svg_attempts e outcomes = .error (attempt_diag last)) ∧
    (∀ o : AttemptOutcome, o.result.returncode ≠ 0 →
      (pyStrip o.result.stderr ≠ [] → o.result.stderr ≠ [] →
        attempt_diag o = pyStrip o.result.stderr) ∧
      (o.result.stderr = [] → pyStrip o.result.stdout ≠ [] →
        attempt_diag o = pyStrip o.result.stdout)) := by
  have hstep : ∀ (e2 : List Char) (o : AttemptOutcome) (rest : List AttemptOutcome),
      export_svg_attempts e2 (o :: rest) =
        if o.result.returncode = 0 then
          (if o.svgs ≠ [] then .ok o.svgs
           else export_svg_attempts "No SVG exported by kicad-cli".data rest)
        else export_svg_attempts (failure_diag o.result) rest :=
    fun _ _ _ => rfl
  constructor
  · induction outcomes generalizing e with
    | nil =>
      intro s
      simp [export_svg_attempts]
    | cons o rest ih =>
      intro s
      by_cases hrc : o.result.returncode = 0
      · by_cases hsv : o.svgs = []
        · have hfail : ¬ attempt_success o = true := by
            simp [attempt_success, hrc, hsv]
          rw [List.find?_cons_of_neg _ hfail, hstep, if_pos hrc,
            if_neg (not_not_intro hsv)]
          exact ih _ s
        · have hsucc : attempt_success o = true := by
            simp [attempt_success, hrc, hsv]
          rw [List.find?_cons_of_pos _ hsucc, hstep, if_pos hrc, if_pos hsv]
          constructor
          · intro h
            rw [Except.ok.injEq] at h
            exact ⟨o, rfl, h.symm⟩
          · rintro ⟨o2, ho2, hs⟩
            rw [Option.some.injEq] at ho2
            subst ho2
            rw [hs]
      · have hfail : ¬ attempt_success o = true := by
          simp [attempt_success, hrc]
        rw [List.find?_cons_of_neg _ hfail, hstep, if_neg hrc]
        exact ih _ s
  constructor
  · induction outcomes generalizing e with
    | nil =>
      intro _ hne
      exact absurd rfl hne
    | cons o rest ih =>
      intro hnone _
      have hfail : ¬ attempt_success o = true := by
        intro h
        rw [List.find?_cons_of_pos _ h] at hnone
        cases hnone
      rw [List.find?_cons_of_neg _ hfail] at hnone
      have hrcsv : o.result.returncode ≠ 0 ∨ o.svgs = [] := by
        by_cases hrc : o.result.returncode = 0
        · right
          by_contra hsv
          exact hfail (by simp [attempt_success, hrc, hsv])
        · exact Or.inl hrc
      cases rest with
      | nil =>
        refine ⟨o, rfl, ?_⟩
        rcases hrcsv with hrc | hsv
        · rw [hstep, if_neg hrc]
          show Except.error (if failure_diag o.result ≠ [] then failure_diag o.result
            else "kicad-cli export failed".data) = _
          rw [if_pos (failure_diag_ne_nil o.result)]
          unfold attempt_diag
          rw [if_neg hrc]
        · by_cases hrc : o.result.returncode = 0
          · rw [hstep, if_pos hrc, if_neg (not_not_intro hsv)]
            show Except.error (if "No SVG exported by kicad-cli".data ≠ [] then
              "No SVG exported by kicad-cli".data
              else "kicad-cli export failed".data) = _
            rw [if_pos (by decide)]
            unfold attempt_diag
            rw [if_pos hrc]
          · rw [hstep, if_neg hrc]
            show Except.error (if failure_diag o.result ≠ [] then failure_diag o.result
              else "kicad-cli export failed".data) = _
            rw [if_pos (failure_diag_ne_nil o.result)]
            unfold attempt_diag
            rw [if_neg hrc]
      | cons r rs =>
        rcases hrcsv with hrc | hsv
        · obtain ⟨last, hlast, hexp⟩ := ih (failure_diag o.result) hnone (by simp)
          refine ⟨last, by rw [List.getLast?_cons_cons]; exact hlast, ?_⟩
          rw [hstep, if_neg hrc]
          exact hexp
        · by_cases hrc : o.result.returncode = 0
          · obtain ⟨last, hlast, hexp⟩ :=
              ih "No SVG exported by kicad-cli".data hnone (by simp)
            refine ⟨last, by rw [List.getLast?_cons_cons]; exact hlast, ?_⟩
            rw [hstep, if_pos hrc, if_neg (not_not_intro hsv)]
            exact hexp
          · obtain ⟨last, hlast, hexp⟩ := ih (failure_diag o.result) hnone (by simp)
            refine ⟨last, by rw [List.getLast?_cons_cons]; exact hlast, ?_⟩
            rw [hstep, if_neg hrc]
            exact hexp
  · intro o hrc
    constructor
    · intro hstrip hne
      unfold attempt_diag
      rw [if_neg hrc]
      exact failure_diag_stderr o.result hne hstrip
    · intro hnil hstdout
      unfold attempt_diag
      rw [if_neg hrc]
      exact failure_diag_stdout o.result hnil hstdout

/-- A concrete failing attempt: exit status 1 with `"boom"` on stderr. -/
def failedAttempt : AttemptOutcome := ⟨⟨1, [], "boom".data⟩, []⟩

/-- A concrete instantiation of `export_svg_attempts_spec`: a single
failing attempt makes the loop raise that attempt's stderr. -/
theorem export_svg_attempts_spec_witness :
    ∃ last, [failedAttempt].getLast? = some last ∧
      export_svg_attempts [] [failedAttempt] = .error (attempt_diag last) :=
  (export_svg_attempts_spec [failedAttempt] []).2.1 (by decide) (by decide)

/-! ### Timeline limit and listing -/

/-- `DEFAULT_TIMELINE_LIMIT` from `__main__.py`. -/
def DEFAULT_TIMELINE_LIMIT : Int := 50

/-- A stored settings value: a JSON integer, or anything else (absent is
`none`; strings, floats and so on are `nonInt`). -/
inductive SettingValue
  | intVal (v : Int)
  | nonInt
deriving DecidableEq

/-- `MainWindow.resolve_timeline_limit` from `__main__.py`. -/
def resolve_timeline_limit (raw : Option SettingValue) : Int :=
  let value : Int :=
    match raw with
    | some (.intVal v) => v
    | _ => DEFAULT_TIMELINE_LIMIT
  if value < 1 then DEFAULT_TIMELINE_LIMIT
  else if value > 500 then 500
  else value

/-- The clamp to `[1, 500]` that the claim asserts for the stored value. -/
def claimed_clamp (v : Int) : Int := max 1 (min v 500)

/-- A timeline entry (`SnapshotItem`); the float timestamp is modelled as
an integer since only its ordering matters here. -/
structure SnapshotItem where
  source : List Char
  identifier : List Char
  label : List Char
  timestamp : Int
deriving DecidableEq

/-- The `compare_items_all` computation of
`MainWindow.refresh_compare_timeline`: merge backup and git items, sort by
timestamp newest first (Python `sorted(..., reverse=True)` is a stable
mergesort), truncate to the resolved limit. -/
def refresh_compare_timeline (backups commits : List SnapshotItem)
    (limit : Int) : List SnapshotItem :=
  ((backups ++ commits).mergeSort fun x1 x2 =>
    decide (x2.timestamp ≤ x1.timestamp)).take limit.toNat

/-- **C6 (counterexample).** For the stored integer `0` the code returns
the default `50`, not the clamp value `1` the claim asserts. -/
theorem resolve_timeline_limit_cex :
    resolve_timeline_limit (some (.intVal 0)) = 50 ∧ claimed_clamp 0 = 1 ∧
    resolve_timeline_limit (some (.intVal 0)) ≠ claimed_clamp 0 := by
  decide

/-- **C6 (amended).** The timeline listing is sorted by timestamp
descending and truncated to the effective limit; the effective limit is
always in `[1, 500]`: it is the stored integer when that lies in
`[1, 500]`, `500` when the stored integer exceeds 500, and the default
`50` when the setting is absent, not an integer, or less than 1. -/
theorem timeline_listing_spec (backups commits : List SnapshotItem)
    (raw : Option SettingValue) (v : Int) :
    (1 ≤ resolve_timeline_limit raw ∧ resolve_timeline_limit raw ≤ 500) ∧
    resolve_timeline_limit none = DEFAULT_TIMELINE_LIMIT ∧
    resolve_timeline_limit (some .nonInt) = DEFAULT_TIMELINE_LIMIT ∧
    (v < 1 → resolve_timeline_limit (some (.intVal v)) = DEFAULT_TIMELINE_LIMIT) ∧
    (500 < v → resolve_timeline_limit (some (.intVal v)) = 500) ∧
    (1 ≤ v → v ≤ 500 → resolve_timeline_limit (some (.intVal v)) = v) ∧
    (refresh_compare_timeline backups commits (resolve_timeline_limit raw)).Sorted
      (fun x1 x2 => x2.timestamp ≤ x1.timestamp) ∧
    (refresh_compare_timeline backups commits (resolve_timeline_limit raw)).length ≤
      (resolve_timeline_limit raw).toNat ∧
    (∀ x ∈ refresh_compare_timeline backups commits (resolve_timeline_limit raw),
      x ∈ backups ++ commits) := by
  refine ⟨?_, by decide, by decide, ?_, ?_, ?_, ?_, ?_, ?_⟩
  · unfold resolve_timeline_limit DEFAULT_TIMELINE_LIMIT
    rcases raw with _ | sv
    · norm_num
    · rcases sv with v2 | _
      · show 1 ≤ (if v2 < 1 then (50 : Int) else if v2 > 500 then 500 else v2) ∧
          (if v2 < 1 then (50 : Int) else if v2 > 500 then 500 else v2) ≤ 500
        split_ifs <;> omega
      · norm_num
  · intro hv
    unfold resolve_timeline_limit DEFAULT_TIMELINE_LIMIT
    show (if v < 1 then (50 : Int) else if v > 500 then 500 else v) = 50
    rw [if_pos hv]
  · intro hv
    unfold resolve_timeline_limit DEFAULT_TIMELINE_LIMIT
    show (if v < 1 then (50 : Int) else if v > 500 then 500 else v) = 500
    rw [if_neg (by omega), if_pos hv]
  · intro h1 h2
    unfold resolve_timeline_limit DEFAULT_TIMELINE_LIMIT
    show (if v < 1 then (50 : Int) else if v > 500 then 500 else v) = v
    rw [if_neg (by omega), if_neg (by omega)]
  · have hs := @List.sorted_mergeSort SnapshotItem
      (fun x1 x2 => decide (x2.timestamp ≤ x1.timestamp))
      (fun a b c h1 h2 => by
        simp only [decide_eq_true_eq] at h1 h2 ⊢
        omega)
      (fun a b => by
        simp only [Bool.or_eq_true, decide_eq_true_eq]
        omega)
      (backups ++ commits)
    unfold refresh_compare_timeline
    refine List.Pairwise.sublist (List.take_sublist _ _) ?_
    exact hs.imp (by simp)
  · unfold refresh_compare_timeline
    rw [List.length_take]
    exact Nat.min_le_left _ _
  · intro x hx
    unfold refresh_compare_timeline at hx
    have h1 := (List.take_sublist _ _).subset hx
    rwa [List.mem_mergeSort] at h1

/-- A concrete instantiation of `timeline_listing_spec`: a stored `600`
resolves to `500`, a stored `100` to itself. -/
theorem timeline_listing_spec_witness :
    resolve_timeline_limit (some (.intVal 600)) = 500 ∧
    resolve_timeline_limit (some (.intVal 100)) = 100 :=
  ⟨(timeline_listing_spec [] [] none 600).2.2.2.2.1 (by decide),
   (timeline_listing_spec [] [] none 100).2.2.2.2.2.1 (by decide) (by decide)⟩

/-! ### The compare render cache and the per-target status map

`_ensure_compare_target_cache`, `on_compare_item_selected` and
`_run_compare_precache_worker` are modelled for one target of a valid
comparison session (compare roots and the kicad-cli candidate set, the
target record well-formed).  `Except.error` models a raised exception.
The sha1-hex cache key of `_cache_paths_for_target` is modelled by the
target key itself, an injective renaming.  The outcomes of the external
world — whether the export/render raises, whether the freshly rendered
images differ, whether the stored PNGs load as non-null images and
whether the loaded pair differs — are parameters (`RenderEnv`). -/

/-- A `compare_target_status` value. -/
inductive TargetStatus
  | pending
  | rendering
  | same
  | diff
  | error
deriving DecidableEq

/-- The environment outside the session state that fixes one target's
render results. -/
structure RenderEnv where
  renderFails : Bool
  renderedDiffer : Bool
  loadOk : Bool
  loadedDiffer : Bool

/-- The session state the compare-cache code touches: cache files on
disk, `compare_target_status`, the key set of the in-memory
`compare_render_cache`, and a counter of performed external renders. -/
structure CompareState where
  disk : List String
  status : List (String × TargetStatus)
  memCache : List String
  renderCount : Nat
deriving DecidableEq

/-- `_cache_paths_for_target`: the three cache PNG paths of a target. -/
def cachePaths (key : String) : String × String × String :=
  (key ++ "_before.png", key ++ "_after.png", key ++ "_diff.png")

/-- `compare_target_status.get(key, "pending")`. -/
def getStatus (s : CompareState) (key : String) : TargetStatus :=
  ((s.status.find? fun p => p.1 == key).map Prod.snd).getD .pending

/-- `compare_target_status[key] = v`. -/
def setStatus (s : CompareState) (key : String) (v : TargetStatus) : CompareState :=
  { s with status := dictInsert s.status key v }

/-- The verdict recomputed on a cache hit: `"diff"` when both stored PNGs
load as non-null images and differ, else `"same"`. -/
def hitStatus (env : RenderEnv) : TargetStatus :=
  if env.loadOk && env.loadedDiffer then .diff else .same

/-- `MainWindow._ensure_compare_target_cache` for one target.  When the
three cache files exist, the verdict is recomputed from the stored PNGs
(`images_different` on the loaded pair) and nothing is rendered; the
presence check is repeated under the render lock (single-threaded it
gives the same answer), then the target is exported and rendered
(`Except.error` when that raises), the three PNGs are written and the
verdict comes from `images_different` on the rendered pair. -/
def ensureCache (env : RenderEnv) (key : String) (s : CompareState) :
    Except Unit (CompareState × (String × String × String)) :=
  let paths := cachePaths key
  if paths.1 ∈ s.disk ∧ paths.2.1 ∈ s.disk ∧ paths.2.2 ∈ s.disk then
    .ok (setStatus s key (hitStatus env), paths)
  else if env.renderFails then .error ()
  else
    let rendered : CompareState :=
      { s with disk := paths.1 :: paths.2.1 :: paths.2.2 :: s.disk,
               renderCount := s.renderCount + 1 }
    .ok (setStatus rendered key (if env.renderedDiffer then .diff else .same), paths)

/-- `MainWindow.on_compare_item_selected` for a valid row holding the
target `key`; besides the new state it returns the list of values written
to `compare_target_status[key]` during the call.  When the in-memory
image cache holds the key, the images are shown and nothing else happens;
otherwise the status is set to `"rendering"`, `_render_compare_target`
runs (`_ensure_compare_target_cache` followed by loading the three PNGs,
raising when a load is null), and any exception sets the status to
`"error"`. -/
def selectStep (env : RenderEnv) (key : String) (s : CompareState) :
    CompareState × List TargetStatus :=
  if key ∈ s.memCache then (s, [])
  else
    let s1 := setStatus s key .rendering
    match ensureCache env key s1 with
    | .error _ => (setStatus s1 key .error, [.rendering, .error])
    | .ok (s2, _) =>
      if env.loadOk then
        ({ s2 with memCache := key :: s2.memCache },
         [.rendering, getStatus s2 key])
      else
        (setStatus s2 key .error, [.rendering, getStatus s2 key, .error])

/-- One iteration of `MainWindow._run_compare_precache_worker` for the
target `key`: move a `"pending"` status to `"rendering"`, run
`_ensure_compare_target_cache`, set `"error"` when it raises. -/
def precacheStep (env : RenderEnv) (key : String) (s : CompareState) :
    CompareState × List TargetStatus :=
  let start :=
    if getStatus s key = .pending then
      (setStatus s key .rendering, [TargetStatus.rendering])
    else (s, ([] : List TargetStatus))
  match ensureCache env key start.1 with
  | .error _ => (setStatus start.1 key .error, start.2 ++ [.error])
  | .ok (s2, _) => (s2, start.2 ++ [getStatus s2 key])

/-- `"same"`, `"diff"` and `"error"` are the terminal statuses. -/
def isTerminal : TargetStatus → Bool
  | .same => true
  | .diff => true
  | .error => true
  | _ => false

/-- The empty state of a fresh comparison session. -/
def initialCompareState : CompareState := ⟨[], [], [], 0⟩

/-- An environment where rendering succeeds, nothing differs and the
stored PNGs load. -/
def okEnv : RenderEnv := ⟨false, false, true, false⟩

lemma find?_map_replace {α : Type} (m : List (String × α)) (k : String) (v : α)
    (hany : m.any (fun p => p.1 == k) = true) :
    (m.map fun p => if p.1 == k then (k, v) else p).find? (fun p => p.1 == k) =
      some (k, v) := by
  induction m with
  | nil => cases hany
  | cons q rest ih =>
    rw [List.map_cons]
    by_cases hq : (q.1 == k) = true
    · rw [if_pos hq]
      have hk : ((k, v).1 == k) = true := by simp
      exact List.find?_cons_of_pos (p := fun r : String × α => r.1 == k) _ hk
    · rw [if_neg hq, List.find?_cons_of_neg (p := fun r : String × α => r.1 == k) _ hq]
      apply ih
      rw [List.any_cons] at hany
      simpa [hq] using hany

lemma find?_append_single {α : Type} (m : List (String × α)) (k : String) (v : α)
    (hnone : m.find? (fun p => p.1 == k) = none) :
    (m ++ [(k, v)]).find? (fun p => p.1 == k) = some (k, v) := by
  induction m with
  | nil =>
    have hk : ((k, v).1 == k) = true := by simp
    exact List.find?_cons_of_pos (p := fun r : String × α => r.1 == k) _ hk
  | cons q rest ih =>
    have hq : ¬ (q.1 == k) = true := by
      intro hq
      rw [List.find?_cons_of_pos (p := fun r : String × α => r.1 == k) _ hq] at hnone
      cases hnone
    rw [List.cons_append, List.find?_cons_of_neg (p := fun r : String × α => r.1 == k) _ hq]
    apply ih
    rwa [List.find?_cons_of_neg (p := fun r : String × α => r.1 == k) _ hq] at hnone

lemma find?_dictInsert {α : Type} (m : List (String × α)) (k : String) (v : α) :
    (dictInsert m k v).find? (fun p => p.1 == k) = some (k, v) := by
  unfold dictInsert
  split_ifs with hany
  · exact find?_map_replace m k v hany
  · apply find?_append_single
    rw [List.find?_eq_none]
    intro x hx hpx
    exact hany (List.any_eq_true.mpr ⟨x, hx, hpx⟩)

lemma getStatus_setStatus (s : CompareState) (key : String) (v : TargetStatus) :
    getStatus (setStatus s key v) key = v := by
  simp only [getStatus, setStatus]
  rw [find?_dictInsert]
  rfl

lemma isTerminal_hitStatus (env : RenderEnv) : isTerminal (hitStatus env) = true := by
  unfold hitStatus
  split_ifs <;> rfl

lemma setStatus_disk (s : CompareState) (key : String) (v : TargetStatus) :
    (setStatus s key v).disk = s.disk := rfl

lemma ensure_hit (env2 : RenderEnv) (key : String) (t : CompareState)
    (h1 : (cachePaths key).1 ∈ t.disk) (h2 : (cachePaths key).2.1 ∈ t.disk)
    (h3 : (cachePaths key).2.2 ∈ t.disk) :
    ensureCache env2 key t = .ok (setStatus t key (hitStatus env2), cachePaths key) := by
  simp only [ensureCache]
  rw [if_pos ⟨h1, h2, h3⟩]

lemma ensure_ok_terminal {env : RenderEnv} {key : String} {s s2 : CompareState}
    {p : String × String × String}
    (h : ensureCache env key s = .ok (s2, p)) :
    isTerminal (getStatus s2 key) = true := by
  simp only [ensureCache] at h
  split_ifs at h with hc hf hd <;>
    rw [Except.ok.injEq, Prod.mk.injEq] at h <;>
    rw [← h.1, getStatus_setStatus] <;>
    first | exact isTerminal_hitStatus env | rfl

/-- **C4.** After one successful `_ensure_compare_target_cache` call, all
three cache files exist; a second call with no invalidation in between is
a pure cache hit: it returns the same three paths, performs no external
render (the render counter, the disk contents and the in-memory cache are
untouched), and only re-derives the verdict status from
`images_different` on the two stored source bitmaps. -/
theorem ensure_compare_cache_roundtrip (env env2 : RenderEnv) (key : String)
    (s s1 : CompareState) (paths : String × String × String)
    (h : ensureCache env key s = .ok (s1, paths)) :
    paths = cachePaths key ∧
    paths.1 ∈ s1.disk ∧ paths.2.1 ∈ s1.disk ∧ paths.2.2 ∈ s1.disk ∧
    ensureCache env2 key s1 = .ok (setStatus s1 key (hitStatus env2), paths) ∧
    (setStatus s1 key (hitStatus env2)).disk = s1.disk ∧
    (setStatus s1 key (hitStatus env2)).memCache = s1.memCache ∧
    (setStatus s1 key (hitStatus env2)).renderCount = s1.renderCount := by
  simp only [ensureCache] at h
  split_ifs at h with hc hf hd
  · rw [Except.ok.injEq, Prod.mk.injEq] at h
    obtain ⟨hs1, hpaths⟩ := h
    subst hpaths
    have m1 : (cachePaths key).1 ∈ s1.disk := by
      rw [← hs1]
      exact hc.1
    have m2 : (cachePaths key).2.1 ∈ s1.disk := by
      rw [← hs1]
      exact hc.2.1
    have m3 : (cachePaths key).2.2 ∈ s1.disk := by
      rw [← hs1]
      exact hc.2.2
    exact ⟨rfl, m1, m2, m3, ensure_hit env2 key s1 m1 m2 m3, rfl, rfl, rfl⟩
  · rw [Except.ok.injEq, Prod.mk.injEq] at h
    obtain ⟨hs1, hpaths⟩ := h
    subst hpaths
    have m1 : (cachePaths key).1 ∈ s1.disk := by
      rw [← hs1]
      exact List.mem_cons_self _ _
    have m2 : (cachePaths key).2.1 ∈ s1.disk := by
      rw [← hs1]
      exact List.mem_cons_of_mem _ (List.mem_cons_self _ _)
    have m3 : (cachePaths key).2.2 ∈ s1.disk := by
      rw [← hs1]
      exact List.mem_cons_of_mem _ (List.mem_cons_of_mem _ (List.mem_cons_self _ _))
    exact ⟨rfl, m1, m2, m3, ensure_hit env2 key s1 m1 m2 m3, rfl, rfl, rfl⟩
  · rw [Except.ok.injEq, Prod.mk.injEq] at h
    obtain ⟨hs1, hpaths⟩ := h
    subst hpaths
    have m1 : (cachePaths key).1 ∈ s1.disk := by
      rw [← hs1]
      exact List.mem_cons_self _ _
    have m2 : (cachePaths key).2.1 ∈ s1.disk := by
      rw [← hs1]
      exact List.mem_cons_of_mem _ (List.mem_cons_self _ _)
    have m3 : (cachePaths key).2.2 ∈ s1.disk := by
      rw [← hs1]
      exact List.mem_cons_of_mem _ (List.mem_cons_of_mem _ (List.mem_cons_self _ _))
    exact ⟨rfl, m1, m2, m3, ensure_hit env2 key s1 m1 m2 m3, rfl, rfl, rfl⟩

/-- The state left by a first successful `ensureCache` call on the empty
session for the key `"k"` under `okEnv`. -/
def firstEnsureState : CompareState :=
  ⟨["k_before.png", "k_after.png", "k_diff.png"], [("k", .same)], [], 1⟩

/-- A concrete instantiation of `ensure_compare_cache_roundtrip`: after
the first render of target `"k"`, the second ensure call is a cache hit
and leaves the render counter untouched. -/
theorem ensure_compare_cache_roundtrip_witness :
    ensureCache okEnv "k" firstEnsureState =
      .ok (setStatus firstEnsureState "k" (hitStatus okEnv), cachePaths "k") ∧
    (setStatus firstEnsureState "k" (hitStatus okEnv)).renderCount =
      firstEnsureState.renderCount :=
  ⟨(ensure_compare_cache_roundtrip okEnv okEnv "k" initialCompareState
      firstEnsureState (cachePaths "k") rfl).2.2.2.2.1,
   (ensure_compare_cache_roundtrip okEnv okEnv "k" initialCompareState
      firstEnsureState (cachePaths "k") rfl).2.2.2.2.2.2.2⟩

/-- **C2 (counterexample).** After the precache worker finishes target
`"k"` (its status is terminal), selecting that target in the UI writes
`"rendering"` to the status map again, because the in-memory image cache
does not hold the key: the claimed monotonicity fails on the selection
path. -/
theorem compare_status_no_regress_cex :
    isTerminal (getStatus (precacheStep okEnv "k" initialCompareState).1 "k") = true ∧
    TargetStatus.rendering ∈
      (selectStep okEnv "k" (precacheStep okEnv "k" initialCompareState).1).2 := by
  decide

/-- **C2 (amended).** From a terminal status, the precache worker never
writes `"pending"` or `"rendering"` for that target and leaves it
terminal, and the interactive selection path leaves the state untouched
when the in-memory image cache holds the target; on an in-memory cache
miss the selection path re-enters `"rendering"` even from a terminal
status, but ends in a terminal status again. -/
theorem compare_status_no_regress (env : RenderEnv) (key : String)
    (s : CompareState) (hterm : isTerminal (getStatus s key) = true) :
    (∀ w ∈ (precacheStep env key s).2, w ≠ .pending ∧ w ≠ .rendering) ∧
    isTerminal (getStatus (precacheStep env key s).1 key) = true ∧
    (key ∈ s.memCache → (selectStep env key s).1 = s ∧ (selectStep env key s).2 = []) ∧
    isTerminal (getStatus (selectStep env key s).1 key) = true := by
  have hnp : ¬ getStatus s key = .pending := by
    intro he
    rw [he] at hterm
    cases hterm
  refine ⟨?_, ?_, ?_, ?_⟩
  · intro w hw
    simp only [precacheStep, if_neg hnp] at hw
    cases hE : ensureCache env key s with
    | error e =>
      rw [hE] at hw
      simp only [List.nil_append, List.mem_singleton] at hw
      subst hw
      exact ⟨by simp, by simp⟩
    | ok pr =>
      obtain ⟨s2, p⟩ := pr
      rw [hE] at hw
      simp only [List.nil_append, List.mem_singleton] at hw
      subst hw
      have ht2 := ensure_ok_terminal hE
      cases h2 : getStatus s2 key <;> rw [h2] at ht2 <;>
        first | exact absurd ht2 (by decide) | exact ⟨by decide, by decide⟩
  · simp only [precacheStep, if_neg hnp]
    cases hE : ensureCache env key s with
    | error e =>
      rw [getStatus_setStatus]
      rfl
    | ok pr =>
      obtain ⟨s2, p⟩ := pr
      exact ensure_ok_terminal hE
  · intro hmem
    simp [selectStep, hmem]
  · by_cases hmem : key ∈ s.memCache
    · simp only [selectStep, if_pos hmem]
      exact hterm
    · simp only [selectStep, if_neg hmem]
      cases hE : ensureCache env key (setStatus s key .rendering) with
      | error e =>
        rw [getStatus_setStatus]
        rfl
      | ok pr =>
        obtain ⟨s2, p⟩ := pr
        by_cases hload : env.loadOk
        · simp only [hload, if_true]
          have ht := ensure_ok_terminal hE
          exact ht
        · rw [Bool.not_eq_true] at hload
          simp only [hload, Bool.false_eq_true, if_false]
          rw [getStatus_setStatus]
          rfl

/-- A session state in which the target `"k"` has already been rendered
and judged `"diff"`. -/
def terminalSessionState : CompareState :=
  ⟨["k_before.png", "k_after.png", "k_diff.png"], [("k", .diff)], [], 1⟩

/-- A concrete instantiation of `compare_status_no_regress`: the precache
worker leaves the already-terminal target `"k"` terminal. -/
theorem compare_status_no_regress_witness :
    isTerminal (getStatus (precacheStep okEnv "k" terminalSessionState).1 "k") = true :=
  (compare_status_no_regress okEnv "k" terminalSessionState (by decide)).2.1

end KicadSnapshot
